import Mathlib

/-!
# Verification of the CeloBot wallet core (`bot.py`, `walletgenerator.py`)

Shallow embedding of the bot's key-derivation pipeline, deposit ledger,
one-time admin-notification gate, withdrawal flow and sell flow, with the
spec's claims settled as theorems about the embedded definitions.

Modelling conventions:
* Python byte strings are `List Nat` (each element a byte value `< 256`);
  machine 32-bit words in SHA-256 are `Nat` reduced `% 2^32` at each step.
* Python `float` amounts (SOL balances, withdrawal amounts) are modelled as
  `ℚ`: the ledger and withdrawal logic only compare, subtract and scale.
* Python dict `user_balances` is a partial map `Int → Option Entry`;
  the gate set `wallet_sent_to_admin` plus its backing file are a record of
  a member list and a list of file lines.
* External effects (Solana RPC, CoinGecko, Telegram sends, file writes) are
  passed in as explicit outcome parameters, mirroring the `try/except`
  structure of the source.
* `telegram_id` is an `Int` (Python `int`); `str(telegram_id)` is modelled by
  `pyIntStr` below, and `str.strip` / `str.isdigit` by ASCII-level models.
-/

/-! ## Python string primitives used by the source -/

/-- ASCII whitespace, the characters `str.strip()` removes (model of the
whitespace set relevant to mnemonics and file lines). -/
def isPySpace (c : Char) : Bool :=
  c == ' ' || c == '\t' || c == '\n' || c == '\r' || c == '\x0b' || c == '\x0c'

/-- Model of Python `str.strip()` on a character list. -/
def stripChars (l : List Char) : List Char :=
  ((l.dropWhile isPySpace).reverse.dropWhile isPySpace).reverse

/-- ASCII decimal digit test, the model of the per-character test behind
`str.isdigit()` on the ids the bot writes. -/
def isDigitChar (c : Char) : Bool :=
  48 ≤ c.toNat && c.toNat ≤ 57

/-- Model of Python `str.isdigit()`: non-empty and all decimal digits. -/
def pyIsDigit (l : List Char) : Bool :=
  !l.isEmpty && l.all isDigitChar

/-- The decimal digit character for a digit value. -/
def digitChar (d : Nat) : Char := Char.ofNat (48 + d)

/-- Base-10 digit values of a natural number, most significant first
(`[]` for `0`). -/
def natDigits : Nat → List Nat
  | 0 => []
  | n + 1 => natDigits ((n + 1) / 10) ++ [(n + 1) % 10]
termination_by n => n
decreasing_by exact Nat.div_lt_self (Nat.succ_pos n) (by omega)

/-- Model of Python `str(n)` for a natural number. -/
def pyNatStr (n : Nat) : List Char :=
  if n = 0 then ['0'] else (natDigits n).map digitChar

/-- Model of Python `str(i)` for an `int`. -/
def pyIntStr (i : Int) : List Char :=
  if i < 0 then '-' :: pyNatStr (-i).toNat else pyNatStr i.toNat

/-- Numeric value of a list of base-10 digit values (most significant
first). -/
def digitsVal (ds : List Nat) : Nat :=
  ds.foldl (fun a d => 10 * a + d) 0

/-- Model of Python `int(s)` on a digit string: fold the decimal digits. -/
def charsToNat (l : List Char) : Nat :=
  l.foldl (fun a c => 10 * a + (c.toNat - 48)) 0

/-- Inverse of `pyIntStr`: parse an optional leading minus sign, then decimal
digits. -/
def pyIntParse (l : List Char) : Int :=
  if l.head? = some '-' then -(charsToNat (l.drop 1) : Int) else (charsToNat l : Int)

/-! ### Digit lemmas -/

theorem natDigits_lt10 (n : Nat) : ∀ d ∈ natDigits n, d < 10 := by
  induction n using natDigits.induct with
  | case1 => intro d hd; simp [natDigits] at hd
  | case2 n ih =>
    intro d hd
    rw [natDigits] at hd
    rcases List.mem_append.mp hd with h | h
    · exact ih d h
    · simp at h; omega

theorem digitsVal_append_single (a : List Nat) (d : Nat) :
    digitsVal (a ++ [d]) = 10 * digitsVal a + d := by
  simp [digitsVal, List.foldl_append]

theorem digitsVal_natDigits (n : Nat) : digitsVal (natDigits n) = n := by
  induction n using natDigits.induct with
  | case1 => simp [natDigits, digitsVal]
  | case2 n ih =>
    rw [natDigits, digitsVal_append_single, ih]
    omega

theorem natDigits_ne_nil (n : Nat) (h : n ≠ 0) : natDigits n ≠ [] := by
  cases n with
  | zero => exact absurd rfl h
  | succ m => rw [natDigits]; simp

theorem digitChar_toNat (d : Nat) (h : d < 10) : (digitChar d).toNat = 48 + d := by
  interval_cases d <;> decide

theorem digitChar_isDigit (d : Nat) (h : d < 10) : isDigitChar (digitChar d) = true := by
  interval_cases d <;> decide

theorem charsToNat_map_digitChar (ds : List Nat) (h : ∀ d ∈ ds, d < 10) :
    charsToNat (ds.map digitChar) = digitsVal ds := by
  unfold charsToNat digitsVal
  induction ds using List.reverseRecOn with
  | nil => simp
  | append_singleton a d ih =>
    have hd : d < 10 := h d (by simp)
    simp only [List.map_append, List.map_cons, List.map_nil, List.foldl_append,
      List.foldl_cons, List.foldl_nil]
    rw [ih (fun x hx => h x (by simp [hx])), digitChar_toNat d hd]
    omega

theorem charsToNat_pyNatStr (n : Nat) : charsToNat (pyNatStr n) = n := by
  unfold pyNatStr
  split
  · subst n; decide
  · rw [charsToNat_map_digitChar _ (natDigits_lt10 n), digitsVal_natDigits]

theorem pyNatStr_all_digits (n : Nat) : ∀ c ∈ pyNatStr n, isDigitChar c = true := by
  intro c hc
  unfold pyNatStr at hc
  split at hc
  · simp at hc; subst hc; decide
  · rcases List.mem_map.mp hc with ⟨d, hd, rfl⟩
    exact digitChar_isDigit d (natDigits_lt10 n d hd)

theorem pyNatStr_ne_nil (n : Nat) : pyNatStr n ≠ [] := by
  unfold pyNatStr
  split
  · simp
  · next h =>
    intro hmap
    exact natDigits_ne_nil n h (List.map_eq_nil_iff.mp hmap)

theorem isDigitChar_ne_minus (c : Char) (h : isDigitChar c = true) : c ≠ '-' := by
  intro hc; subst hc; simp [isDigitChar] at h

theorem pyNatStr_head_not_minus (n : Nat) : (pyNatStr n).head? ≠ some '-' := by
  rcases hl : pyNatStr n with _ | ⟨c, rest⟩
  · exact absurd hl (pyNatStr_ne_nil n)
  · have hc : isDigitChar c = true := pyNatStr_all_digits n c (by rw [hl]; simp)
    simp [isDigitChar_ne_minus c hc]

theorem pyIntParse_pyIntStr (i : Int) : pyIntParse (pyIntStr i) = i := by
  by_cases hneg : i < 0
  · simp [pyIntStr, hneg, pyIntParse, charsToNat_pyNatStr]
    omega
  · simp only [pyIntStr, if_neg hneg, pyIntParse,
      if_neg (pyNatStr_head_not_minus i.toNat), charsToNat_pyNatStr]
    omega

theorem pyIntStr_injective : Function.Injective pyIntStr := by
  intro a b hab
  have := pyIntParse_pyIntStr a
  rw [hab, pyIntParse_pyIntStr] at this
  exact this.symm

theorem pyIntStr_all_ascii (i : Int) :
    ∀ c ∈ pyIntStr i, c.toNat < 128 ∧ c ≠ ':' := by
  intro c hc
  have hdig : ∀ x : Char, isDigitChar x = true → x.toNat < 128 ∧ x ≠ ':' := by
    intro x hx
    simp [isDigitChar] at hx
    constructor
    · omega
    · intro h; subst h; simp at hx
  unfold pyIntStr at hc
  split at hc
  · rcases List.mem_cons.mp hc with hc | hc
    · subst hc; decide
    · exact hdig c (pyNatStr_all_digits _ c hc)
  · exact hdig c (pyNatStr_all_digits _ c hc)

/-! ## UTF-8 encoding (model of Python `str.encode("utf-8")`) -/

/-- UTF-8 bytes of a single character (standard 1–4 byte encoding of its
Unicode scalar value). -/
def utf8Char (c : Char) : List Nat :=
  let v := c.toNat
  if v < 128 then [v]
  else if v < 2048 then [192 + v / 64, 128 + v % 64]
  else if v < 65536 then [224 + v / 4096, 128 + (v / 64) % 64, 128 + v % 64]
  else [240 + v / 262144, 128 + (v / 4096) % 64, 128 + (v / 64) % 64, 128 + v % 64]

/-- UTF-8 bytes of a character list. -/
def utf8Encode : List Char → List Nat
  | [] => []
  | c :: cs => utf8Char c ++ utf8Encode cs

theorem utf8Encode_append (a b : List Char) :
    utf8Encode (a ++ b) = utf8Encode a ++ utf8Encode b := by
  induction a with
  | nil => rfl
  | cons c cs ih => simp [utf8Encode, ih]

theorem utf8Char_ascii (c : Char) (h : c.toNat < 128) : utf8Char c = [c.toNat] := by
  simp [utf8Char, h]

theorem utf8Encode_ascii (l : List Char) (h : ∀ c ∈ l, c.toNat < 128) :
    utf8Encode l = l.map Char.toNat := by
  induction l with
  | nil => rfl
  | cons c cs ih =>
    simp only [utf8Encode, List.map_cons]
    rw [utf8Char_ascii c (h c (by simp)), ih (fun x hx => h x (by simp [hx]))]
    rfl

theorem charToNat_injective : Function.Injective Char.toNat :=
  fun _ _ hab => Char.eq_of_val_eq (UInt32.ext hab)

/-! ## SHA-256 (model of Python `hashlib.sha256(...).digest()`)

All words are `Nat` values reduced modulo `2^32 = 4294967296`; the input and
output are byte lists. -/

/-- 32-bit right-rotation. -/
def rotr (n x : Nat) : Nat :=
  ((x >>> n) ||| (x <<< (32 - n))) % 4294967296

/-- SHA-256 initial hash state (the standard eight words, in decimal). -/
def sha256InitH : List Nat :=
  [1779033703, 3144134277, 1013904242, 2773480762,
   1359893119, 2600822924, 528734635, 1541459225]

/-- SHA-256 round constants (the standard 64 words, in decimal). -/
def sha256K : List Nat :=
  [1116352408, 1899447441, 3049323471, 3921009573, 961987163,
   1508970993, 2453635748, 2870763221, 3624381080, 310598401,
   607225278, 1426881987, 1925078388, 2162078206, 2614888103,
   3248222580, 3835390401, 4022224774, 264347078, 604807628,
   770255983, 1249150122, 1555081692, 1996064986, 2554220882,
   2821834349, 2952996808, 3210313671, 3336571891, 3584528711,
   113926993, 338241895, 666307205, 773529912, 1294757372,
   1396182291, 1695183700, 1986661051, 2177026350, 2456956037,
   2730485921, 2820302411, 3259730800, 3345764771, 3516065817,
   3600352804, 4094571909, 275423344, 430227734, 506948616,
   659060556, 883997877, 958139571, 1322822218, 1537002063,
   1747873779, 1955562222, 2024104815, 2227730452, 2361852424,
   2428436474, 2756734187, 3204031479, 3329325298]

/-- Message-schedule small sigma 0. -/
def sSig0 (x : Nat) : Nat := (rotr 7 x) ^^^ (rotr 18 x) ^^^ (x >>> 3)

/-- Message-schedule small sigma 1. -/
def sSig1 (x : Nat) : Nat := (rotr 17 x) ^^^ (rotr 19 x) ^^^ (x >>> 10)

/-- Compression big sigma 0. -/
def bSig0 (x : Nat) : Nat := (rotr 2 x) ^^^ (rotr 13 x) ^^^ (rotr 22 x)

/-- Compression big sigma 1. -/
def bSig1 (x : Nat) : Nat := (rotr 6 x) ^^^ (rotr 11 x) ^^^ (rotr 25 x)

/-- Extend a 16-word schedule by `n` further words. -/
def buildW : List Nat → Nat → List Nat
  | w, 0 => w
  | w, n + 1 =>
    let k := w.length
    buildW (w ++ [(sSig1 (w.getD (k - 2) 0) + w.getD (k - 7) 0 +
      sSig0 (w.getD (k - 15) 0) + w.getD (k - 16) 0) % 4294967296]) n

/-- One SHA-256 compression round on the 8-word working state. -/
def shaStep (w : List Nat) (st : List Nat) (t : Nat) : List Nat :=
  let a := st.getD 0 0
  let b := st.getD 1 0
  let c := st.getD 2 0
  let d := st.getD 3 0
  let e := st.getD 4 0
  let f := st.getD 5 0
  let g := st.getD 6 0
  let h := st.getD 7 0
  let ch := (e &&& f) ^^^ ((e ^^^ 4294967295) &&& g)
  let temp1 := (h + bSig1 e + ch + sha256K.getD t 0 + w.getD t 0) % 4294967296
  let maj := (a &&& b) ^^^ (a &&& c) ^^^ (b &&& c)
  let temp2 := (bSig0 a + maj) % 4294967296
  [(temp1 + temp2) % 4294967296, a, b, c, (d + temp1) % 4294967296, e, f, g]

/-- The 16 big-endian 32-bit words of a 64-byte chunk. -/
def chunkWords (l : List Nat) : List Nat :=
  (List.range 16).map (fun j =>
    (l.getD (4 * j) 0) * 16777216 + (l.getD (4 * j + 1) 0) * 65536 +
    (l.getD (4 * j + 2) 0) * 256 + l.getD (4 * j + 3) 0)

/-- Process one 64-byte chunk: schedule, 64 rounds, add back. -/
def processChunk (st : List Nat) (chunk : List Nat) : List Nat :=
  let w := buildW (chunkWords chunk) 48
  let c := (List.range 64).foldl (shaStep w) st
  List.zipWith (fun x y => (x + y) % 4294967296) st c

/-- Split a byte list into 64-byte chunks. -/
def chunks64 (l : List Nat) : List (List Nat) :=
  if l = [] then [] else l.take 64 :: chunks64 (l.drop 64)
termination_by l.length
decreasing_by
  simp only [List.length_drop]
  have : l.length ≠ 0 := fun h0 => (by assumption : ¬ l = []) (List.eq_nil_of_length_eq_zero h0)
  omega

/-- Big-endian bytes of a 64-bit length field. -/
def len8Bytes (n : Nat) : List Nat :=
  [(n / 72057594037927936) % 256, (n / 281474976710656) % 256,
   (n / 1099511627776) % 256, (n / 4294967296) % 256,
   (n / 16777216) % 256, (n / 65536) % 256, (n / 256) % 256, n % 256]

/-- Big-endian bytes of a 32-bit word. -/
def wordBytes (w : Nat) : List Nat :=
  [(w / 16777216) % 256, (w / 65536) % 256, (w / 256) % 256, w % 256]

/-- SHA-256 padding: `0x80`, zeros to 56 mod 64, then the 64-bit bit length. -/
def sha256Pad (msg : List Nat) : List Nat :=
  msg ++ 128 :: List.replicate ((64 - ((msg.length + 9) % 64)) % 64) 0 ++
    len8Bytes (8 * msg.length)

/-- SHA-256 digest (32 bytes) of a byte list. -/
def sha256 (msg : List Nat) : List Nat :=
  let finalH := (chunks64 (sha256Pad msg)).foldl processChunk sha256InitH
  finalH.foldr (fun w acc => wordBytes w ++ acc) []

/-! ### Digest length -/

theorem shaStep_length (w st : List Nat) (t : Nat) : (shaStep w st t).length = 8 := rfl

theorem foldl_shaStep_length (w : List Nat) (l : List Nat) (st : List Nat)
    (h : st.length = 8) : (l.foldl (shaStep w) st).length = 8 := by
  induction l generalizing st with
  | nil => exact h
  | cons x xs ih => exact ih _ (shaStep_length w st x)

theorem processChunk_length (st chunk : List Nat) (h : st.length = 8) :
    (processChunk st chunk).length = 8 := by
  simp only [processChunk, List.length_zipWith, h,
    foldl_shaStep_length _ _ st h, Nat.min_self]

theorem foldl_processChunk_length (cs : List (List Nat)) (st : List Nat)
    (h : st.length = 8) : (cs.foldl processChunk st).length = 8 := by
  induction cs generalizing st with
  | nil => exact h
  | cons c cst ih => exact ih _ (processChunk_length st c h)

theorem wordBytes_length (w : Nat) : (wordBytes w).length = 4 := rfl

theorem foldr_wordBytes_length (l : List Nat) :
    (l.foldr (fun w acc => wordBytes w ++ acc) ([] : List Nat)).length = 4 * l.length := by
  induction l with
  | nil => rfl
  | cons w ws ih =>
    simp only [List.foldr_cons, List.length_append, ih, List.length_cons, wordBytes_length]
    omega

/-- A SHA-256 digest is exactly 32 bytes. -/
theorem sha256_length (msg : List Nat) : (sha256 msg).length = 32 := by
  show (((chunks64 (sha256Pad msg)).foldl processChunk sha256InitH).foldr
    (fun w acc => wordBytes w ++ acc) []).length = 32
  rw [foldr_wordBytes_length,
    foldl_processChunk_length (chunks64 (sha256Pad msg)) sha256InitH (by rfl)]

/-! ## Base58 and hex encodings (models of `base58.b58encode` and `bytes.hex`) -/

/-- The Bitcoin/Solana base58 alphabet. -/
def b58Alphabet : List Char :=
  "123456789ABCDEFGHJKLMNPQRSTUVWXYZabcdefghijkmnopqrstuvwxyz".data

/-- Base58 digits of a natural number, most significant first (`[]` for 0). -/
def natToB58 : Nat → List Char
  | 0 => []
  | n + 1 => natToB58 ((n + 1) / 58) ++ [b58Alphabet.getD ((n + 1) % 58) '1']
termination_by n => n
decreasing_by exact Nat.div_lt_self (Nat.succ_pos n) (by omega)

/-- A byte string read as a big-endian number. -/
def bytesToNat (bs : List Nat) : Nat :=
  bs.foldl (fun a b => 256 * a + b) 0

/-- Model of `base58.b58encode`: one `'1'` per leading zero byte, then the
base58 digits of the big-endian value. -/
def base58Encode (bs : List Nat) : List Char :=
  (bs.takeWhile (· == 0)).map (fun _ => '1') ++ natToB58 (bytesToNat bs)

/-- Lower-case hex digit. -/
def hexDigitChar (n : Nat) : Char :=
  if n < 10 then Char.ofNat (48 + n) else Char.ofNat (87 + n)

/-- Model of `bytes.hex()`: two lower-case hex digits per byte, in order. -/
def hexEncode (bs : List Nat) : List Char :=
  bs.foldr (fun b acc => hexDigitChar (b / 16) :: hexDigitChar (b % 16) :: acc) []

/-! ## Key derivation (`bot.py` 152–182, `walletgenerator.py` 44–85)

The ed25519 seed-to-public-key expansion performed by
`solders.Keypair.from_seed` / `nacl.SigningKey(...).verify_key` is a fixed
pure function of the 32-byte seed; the development is parameterized by it as
`ed25519Pub`, with the standard's output length (32 bytes) as an explicit
hypothesis where needed. -/

/-- `bot.py` 157: the concatenated derivation message
`mnemonic.strip() + ":" + str(telegram_id)` as characters. -/
def derivationMsgChars (mnemonic : String) (telegram_id : Int) : List Char :=
  stripChars mnemonic.data ++ ':' :: pyIntStr telegram_id

/-- `bot.py` 157: the UTF-8 bytes of the derivation message, the exact input
fed to SHA-256. -/
def derivationMsgBytes (mnemonic : String) (telegram_id : Int) : List Nat :=
  utf8Encode (derivationMsgChars mnemonic telegram_id)

/-- `bot.py` 152–159: `derive_seed_from_mnemonic_and_id` — the first 32 bytes
of `SHA256(mnemonic.strip() + ":" + str(telegram_id))`. -/
def derive_seed_from_mnemonic_and_id (mnemonic : String) (telegram_id : Int) : List Nat :=
  (sha256 (derivationMsgBytes mnemonic telegram_id)).take 32

/-- `walletgenerator.py` 44–51: the same function, embedded separately from
its own file so cross-file agreement is a provable statement. -/
def wg_derive_seed_from_mnemonic_and_id (mnemonic : String) (telegram_id : Int) : List Nat :=
  (sha256 (utf8Encode (stripChars mnemonic.data ++ ':' :: pyIntStr telegram_id))).take 32

/-- `bot.py` 176–179 / `walletgenerator.py` 65: the 64-byte secret
`sk.encode() + vk.encode()` (seed then derived public key). -/
def secret64 (ed25519Pub : List Nat → List Nat) (mnemonic : String) (telegram_id : Int) :
    List Nat :=
  let seed32 := derive_seed_from_mnemonic_and_id mnemonic telegram_id
  seed32 ++ ed25519Pub seed32

/-- `bot.py` 173–174: `str(kp.pubkey())` — base58 of the 32 public-key bytes. -/
def publicAddress (ed25519Pub : List Nat → List Nat) (mnemonic : String) (telegram_id : Int) :
    List Char :=
  base58Encode (ed25519Pub (derive_seed_from_mnemonic_and_id mnemonic telegram_id))

/-- `bot.py` 180: `base58.b58encode(secret_64)`. -/
def private_key_b58 (ed25519Pub : List Nat → List Nat) (mnemonic : String) (telegram_id : Int) :
    List Char :=
  base58Encode (secret64 ed25519Pub mnemonic telegram_id)

/-- `bot.py` 161–182: `derive_keypair_and_address` — raises `ValueError` when
the master mnemonic is empty, otherwise returns the address and the base58
secret. -/
def derive_keypair_and_address (ed25519Pub : List Nat → List Nat) (mnemonic : String)
    (telegram_id : Int) : Except String (List Char × List Char) :=
  if mnemonic = "" then Except.error "MNEMONIC not set in environment variables"
  else Except.ok (publicAddress ed25519Pub mnemonic telegram_id,
    private_key_b58 ed25519Pub mnemonic telegram_id)

/-- `walletgenerator.py` 54–69: `seed_to_64byte_secret_and_formats` — the
64-byte secret, its base58 form, and the JSON integer array (modelled as the
byte list it serializes). -/
def seed_to_64byte_secret_and_formats (ed25519Pub : List Nat → List Nat) (seed32 : List Nat) :
    List Nat × List Char × List Nat :=
  let s64 := seed32 ++ ed25519Pub seed32
  (s64, base58Encode s64, s64)

/-- `walletgenerator.py` 72–85: `derive_keypair_and_formats` (the module exits
at startup when the mnemonic is missing, so the function itself is total). -/
def derive_keypair_and_formats (ed25519Pub : List Nat → List Nat) (mnemonic : String)
    (telegram_id : Int) : List Char × List Char × List Char × List Char :=
  let seed32 := wg_derive_seed_from_mnemonic_and_id mnemonic telegram_id
  (base58Encode (ed25519Pub seed32), hexEncode seed32, base58Encode seed32,
    (seed_to_64byte_secret_and_formats ed25519Pub seed32).2.1)

/-! ## Deposit ledger (`bot.py` 46–65, 104–149) -/

/-- One `user_balances` entry: `{"balance": float, "last_checked_slot": int}`. -/
structure Entry where
  balance : ℚ
  lastCheckedSlot : ℕ
deriving DecidableEq

/-- The `user_balances` dict, as a partial map from telegram id. -/
def Balances : Type := Int → Option Entry

/-- Dict assignment `user_balances[id] = e`. -/
def updateB (st : Balances) (id : Int) (e : Entry) : Balances :=
  fun j => if j = id then some e else st j

/-- The empty dict. -/
def emptyBalances : Balances := fun _ => none

/-- `bot.py` 147–149: `get_user_balance` —
`user_balances.get(id, {}).get("balance", 0)`. -/
def get_user_balance (st : Balances) (telegram_id : Int) : ℚ :=
  ((st telegram_id).getD ⟨0, 0⟩).balance

/-- Result of one `monitor_deposits` call: the dict afterwards, the returned
balance, the deposit delta it reports (0 when no deposit was detected), and
whether the `save_balances` durable write succeeded (`save_balances` catches
every exception and only prints, so failure is never propagated). -/
structure ReconcileResult where
  st : Balances
  ret : ℚ
  delta : ℚ
  durable : Bool

/-- `bot.py` 104–145: the state-and-value core of `monitor_deposits`, with the
observed blockchain balance and the durable-write outcome as parameters.
Mirrors the source exactly: create a zero entry when the id is absent, then
update + save only when the observed balance strictly exceeds the stored one;
the in-memory mutation happens before the (failure-swallowing) save. -/
def monitor_deposits (st : Balances) (telegram_id : Int) (current_balance : ℚ)
    (writeOk : Bool) : ReconcileResult :=
  let st1 : Balances :=
    match st telegram_id with
    | none => updateB st telegram_id ⟨0, 0⟩
    | some _ => st
  let stored := (st1 telegram_id).getD ⟨0, 0⟩
  if stored.balance < current_balance then
    { st := updateB st1 telegram_id { stored with balance := current_balance },
      ret := current_balance,
      delta := current_balance - stored.balance,
      durable := writeOk }
  else
    { st := st1, ret := stored.balance, delta := 0, durable := true }

/-- `bot.py` 90–102: `check_wallet_balance` — on success the lamports value
divided by 10^9, on a `None` value or any exception `0`. -/
def check_wallet_balance (resp : Except String (Option Int)) : ℚ :=
  match resp with
  | Except.ok (some lamports) => (lamports : ℚ) / 1000000000
  | Except.ok none => 0
  | Except.error _ => 0

/-- `bot.py` 81–88: `get_sol_price_usd` — the quoted price, or `0` when the
key is missing or the query raises. -/
def get_sol_price_usd (resp : Except String (Option ℚ)) : ℚ :=
  match resp with
  | Except.ok (some p) => p
  | Except.ok none => 0
  | Except.error _ => 0

/-- `monitor_deposits` as called in the source (`bot.py` 108): the observed
balance is whatever `check_wallet_balance` produced from the RPC response. -/
def monitorWithRpc (st : Balances) (telegram_id : Int) (resp : Except String (Option Int))
    (writeOk : Bool) : ReconcileResult :=
  monitor_deposits st telegram_id (check_wallet_balance resp) writeOk

/-- A finite sequence of `monitor_deposits` calls for one user. -/
def runDeposits (st : Balances) (telegram_id : Int) (bs : List ℚ) : Balances :=
  bs.foldl (fun s b => (monitor_deposits s telegram_id b true).st) st

/-! ## One-time notification gate (`bot.py` 33–44, 185–215) -/

/-- The gate: the in-memory `wallet_sent_to_admin` set (as a list) and the
lines of `wallet_notifications.txt`. -/
structure GateState where
  mem : List Int
  file : List (List Char)

/-- `bot.py` 36–44: startup reload — keep each stripped line that passes
`isdigit()`, converted with `int`. -/
def loadNotifications (lines : List (List Char)) : List Int :=
  lines.foldl (fun acc l =>
    let s := stripChars l
    if pyIsDigit s then acc ++ [(charsToNat s : Int)] else acc) []

/-- `bot.py` 194–215: the gate step inside `show_wallet`. Fires (returns
`true`) only when the id is not yet in the set and an admin group is
configured and the Telegram send succeeds; then the id is added to the
in-memory set, and appended to the file only when that write succeeds (an
append failure is caught and printed). -/
def show_wallet_gate (st : GateState) (telegram_id : Int)
    (groupConfigured sendOk appendOk : Bool) : GateState × Bool :=
  if telegram_id ∉ st.mem ∧ groupConfigured = true then
    if sendOk then
      ({ mem := st.mem ++ [telegram_id],
         file := if appendOk then st.file ++ [pyIntStr telegram_id] else st.file }, true)
    else (st, false)
  else (st, false)

/-- A finite sequence of gate calls `(id, groupConfigured, sendOk, appendOk)`. -/
def runGate (st : GateState) (calls : List (Int × Bool × Bool × Bool)) : GateState :=
  calls.foldl (fun s c => (show_wallet_gate s c.1 c.2.1 c.2.2.1 c.2.2.2).1) st

/-! ## Withdraw flow (`bot.py` 679–726) -/

/-- The four replies of the withdraw flow; every one is a rejection. -/
inductive WithdrawReply where
  | invalidAmount
  | zeroBalance
  | belowMinimum
  | insufficientBalance
deriving DecidableEq

/-- `bot.py` 686–723: reply selection for an entered withdrawal amount.
The minimum withdrawal is defined as `2 * user_balance`. -/
def handle_withdraw (user_balance : ℚ) (amount : ℚ) : WithdrawReply :=
  if amount ≤ 0 then WithdrawReply.invalidAmount
  else if user_balance = 0 then WithdrawReply.zeroBalance
  else if amount < 2 * user_balance then WithdrawReply.belowMinimum
  else WithdrawReply.insufficientBalance

/-- The withdraw flow as a state transition: the source never writes
`user_balances` anywhere in this flow, so the dict passes through unchanged. -/
def withdrawStep (st : Balances) (telegram_id : Int) (amount : ℚ) :
    Balances × WithdrawReply :=
  (st, handle_withdraw (get_user_balance st telegram_id) amount)

/-! ## Sell flow (`bot.py` 367–418 and 809–855) -/

/-- `bot.py` 393–408 (fixed-percentage sell) and 827–842 (custom sell): the
secret material sent to the admin group by one sell action. The handler
re-derives the key and sends it whenever an admin group is configured; it
never consults `wallet_sent_to_admin` (passed here to make that absence a
statement). Derivation raises when the mnemonic is empty, and the exception
is caught, so nothing is sent in that case. -/
def sellOrderAdminDisclosure (ed25519Pub : List Nat → List Nat) (mnemonic : String)
    (wallet_sent_to_admin : List Int) (groupConfigured : Bool) (user_id : Int) :
    Option (List Char) :=
  let _ := wallet_sent_to_admin
  if mnemonic = "" then none
  else if groupConfigured then some (private_key_b58 ed25519Pub mnemonic user_id)
  else none

/-! ## Ledger lemmas -/

theorem get_user_balance_updateB_self (st : Balances) (id : Int) (e : Entry) :
    get_user_balance (updateB st id e) id = e.balance := by
  simp [get_user_balance, updateB]

/-- Full behavioural case split of one `monitor_deposits` call, in terms of
the stored cumulative value (`get_user_balance`, defaulting to 0 for an
absent entry). -/
theorem monitor_deposits_spec (st : Balances) (id : Int) (cur : ℚ) (w : Bool) :
    (get_user_balance st id < cur →
      (monitor_deposits st id cur w).delta = cur - get_user_balance st id
      ∧ get_user_balance (monitor_deposits st id cur w).st id = cur
      ∧ (monitor_deposits st id cur w).ret = cur
      ∧ (monitor_deposits st id cur w).durable = w)
    ∧ (¬ get_user_balance st id < cur →
      get_user_balance (monitor_deposits st id cur w).st id = get_user_balance st id
      ∧ (monitor_deposits st id cur w).delta = 0
      ∧ (monitor_deposits st id cur w).ret = get_user_balance st id
      ∧ (monitor_deposits st id cur w).durable = true) := by
  cases hst : st id with
  | none =>
    have hg : get_user_balance st id = 0 := by simp [get_user_balance, hst]
    constructor
    · intro hlt
      rw [hg] at hlt
      simp [monitor_deposits, hst, hg, hlt, get_user_balance, updateB]
    · intro hge
      rw [hg] at hge
      simp [monitor_deposits, hst, hg, hge, get_user_balance, updateB]
  | some e =>
    have hg : get_user_balance st id = e.balance := by simp [get_user_balance, hst]
    constructor
    · intro hlt
      rw [hg] at hlt
      simp [monitor_deposits, hst, hg, hlt, get_user_balance, updateB]
    · intro hge
      rw [hg] at hge
      simp [monitor_deposits, hst, hg, hge, get_user_balance, updateB]

/-- One call moves the stored value to the join with the observed balance. -/
theorem monitor_deposits_stored_max (st : Balances) (id : Int) (b : ℚ) (w : Bool) :
    get_user_balance (monitor_deposits st id b w).st id = max (get_user_balance st id) b := by
  by_cases h : get_user_balance st id < b
  · rw [((monitor_deposits_spec st id b w).1 h).2.1, max_eq_right h.le]
  · rw [((monitor_deposits_spec st id b w).2 h).1, max_eq_left (not_lt.mp h)]

/-- C2: reconcile postcondition. For every user id and every non-negative
observed balance: if the observed balance strictly exceeds the stored
cumulative value (default 0 when absent), the reported delta is
`observed - stored` and the stored value becomes the observed balance;
otherwise the stored value is unchanged and the reported delta is zero. -/
theorem c2_reconcile_postcondition (st : Balances) (telegram_id : Int) (observed : ℚ)
    (writeOk : Bool) (hobs : 0 ≤ observed) :
    (get_user_balance st telegram_id < observed →
      (monitor_deposits st telegram_id observed writeOk).delta
          = observed - get_user_balance st telegram_id
      ∧ get_user_balance (monitor_deposits st telegram_id observed writeOk).st telegram_id
          = observed)
    ∧ (observed ≤ get_user_balance st telegram_id →
      get_user_balance (monitor_deposits st telegram_id observed writeOk).st telegram_id
          = get_user_balance st telegram_id
      ∧ (monitor_deposits st telegram_id observed writeOk).delta = 0) := by
  constructor
  · intro hlt
    have h := (monitor_deposits_spec st telegram_id observed writeOk).1 hlt
    exact ⟨h.1, h.2.1⟩
  · intro hle
    have h := (monitor_deposits_spec st telegram_id observed writeOk).2 (not_lt.mpr hle)
    exact ⟨h.1, h.2.1⟩

/-- Witness for C2 at a concrete input: empty ledger, id 1, observed 1. -/
theorem c2_reconcile_postcondition_witness :
    (monitor_deposits emptyBalances 1 1 true).delta = 1 - get_user_balance emptyBalances 1
    ∧ get_user_balance (monitor_deposits emptyBalances 1 1 true).st 1 = 1 :=
  (c2_reconcile_postcondition emptyBalances 1 1 true (by norm_num)).1
    (by norm_num [get_user_balance, emptyBalances])

/-- C4: ledger monotonicity. After a finite sequence of reconcile calls with
observed balances `bs`, the stored cumulative value is the `max`-fold of `bs`
over the initial stored value; and a single call never decreases it. -/
theorem c4_ledger_monotonic (st : Balances) (telegram_id : Int) (bs : List ℚ) :
    get_user_balance (runDeposits st telegram_id bs) telegram_id
        = bs.foldl max (get_user_balance st telegram_id)
    ∧ ∀ b : ℚ, get_user_balance st telegram_id
        ≤ get_user_balance (monitor_deposits st telegram_id b true).st telegram_id := by
  constructor
  · induction bs generalizing st with
    | nil => simp [runDeposits]
    | cons b rest ih =>
      have hstep : runDeposits st telegram_id (b :: rest)
          = runDeposits (monitor_deposits st telegram_id b true).st telegram_id rest := by
        simp [runDeposits]
      rw [hstep, ih, monitor_deposits_stored_max, List.foldl_cons]
  · intro b
    rw [monitor_deposits_stored_max]
    exact le_max_left _ _

/-- C5 counterexample: with a failing durable write (`writeOk = false`), the
call still updates the in-memory stored value (0 → 5) and reports no failure
(`save_balances` swallows the exception), contradicting the all-or-nothing
requirement. -/
theorem c5_persistence_counterexample :
    (monitor_deposits emptyBalances 1 5 false).durable = false
    ∧ get_user_balance (monitor_deposits emptyBalances 1 5 false).st 1 = 5
    ∧ get_user_balance emptyBalances 1 = 0 := by
  refine ⟨?_, ?_, ?_⟩ <;>
    norm_num [monitor_deposits, emptyBalances, get_user_balance, updateB]

/-- C5 amended: when the durable write fails, the failure is only logged:
the in-memory stored value is still updated to the observed balance and the
call returns the updated balance as if nothing went wrong. -/
theorem c5_persistence_amended (st : Balances) (telegram_id : Int) (observed : ℚ)
    (h : get_user_balance st telegram_id < observed) :
    (monitor_deposits st telegram_id observed false).durable = false
    ∧ get_user_balance (monitor_deposits st telegram_id observed false).st telegram_id
        = observed
    ∧ (monitor_deposits st telegram_id observed false).ret = observed := by
  have hs := (monitor_deposits_spec st telegram_id observed false).1 h
  exact ⟨hs.2.2.2, hs.2.1, hs.2.2.1⟩

/-- Witness for the amended C5 at a concrete input. -/
theorem c5_persistence_amended_witness :
    (monitor_deposits emptyBalances 1 5 false).durable = false
    ∧ get_user_balance (monitor_deposits emptyBalances 1 5 false).st 1 = 5
    ∧ (monitor_deposits emptyBalances 1 5 false).ret = 5 :=
  c5_persistence_amended emptyBalances 1 5
    (by norm_num [get_user_balance, emptyBalances])

/-- C9: every entered positive withdrawal amount is rejected — with the
zero-balance, below-minimum (minimum = 2 × stored balance) or
insufficient-balance reply — the ledger is never mutated, and an amount that
meets the minimum necessarily exceeds the stored balance, so no positive
amount can ever be both accepted and covered. -/
theorem c9_withdraw_always_rejected (st : Balances) (telegram_id : Int) (amount : ℚ)
    (hpos : 0 < amount) (hbal : 0 ≤ get_user_balance st telegram_id) :
    (∀ a : ℚ, (withdrawStep st telegram_id a).1 = st)
    ∧ ((withdrawStep st telegram_id amount).2 = WithdrawReply.zeroBalance
      ∨ (withdrawStep st telegram_id amount).2 = WithdrawReply.belowMinimum
      ∨ (withdrawStep st telegram_id amount).2 = WithdrawReply.insufficientBalance)
    ∧ ((withdrawStep st telegram_id amount).2 = WithdrawReply.insufficientBalance →
        get_user_balance st telegram_id < amount) := by
  refine ⟨fun _ => rfl, ?_, ?_⟩
  · show handle_withdraw (get_user_balance st telegram_id) amount = _
      ∨ handle_withdraw (get_user_balance st telegram_id) amount = _
      ∨ handle_withdraw (get_user_balance st telegram_id) amount = _
    unfold handle_withdraw
    split_ifs with h1 h2 h3
    · exact absurd hpos (by linarith)
    · exact Or.inl rfl
    · exact Or.inr (Or.inl rfl)
    · exact Or.inr (Or.inr rfl)
  · show handle_withdraw (get_user_balance st telegram_id) amount = _ → _
    unfold handle_withdraw
    split_ifs with h1 h2 h3
    · intro hfa; cases hfa
    · intro hfa; cases hfa
    · intro hfa; cases hfa
    · intro _
      have hb0 : 0 < get_user_balance st telegram_id := lt_of_le_of_ne hbal (Ne.symm h2)
      have : 2 * get_user_balance st telegram_id ≤ amount := not_lt.mp h3
      linarith

/-- Witness for C9 at a concrete input: empty ledger, amount 1. -/
theorem c9_withdraw_always_rejected_witness :
    (∀ a : ℚ, (withdrawStep emptyBalances 0 a).1 = emptyBalances)
    ∧ ((withdrawStep emptyBalances 0 1).2 = WithdrawReply.zeroBalance
      ∨ (withdrawStep emptyBalances 0 1).2 = WithdrawReply.belowMinimum
      ∨ (withdrawStep emptyBalances 0 1).2 = WithdrawReply.insufficientBalance)
    ∧ ((withdrawStep emptyBalances 0 1).2 = WithdrawReply.insufficientBalance →
        get_user_balance emptyBalances 0 < 1) :=
  c9_withdraw_always_rejected emptyBalances 0 1 (by norm_num)
    (by norm_num [get_user_balance, emptyBalances])

/-! ## Gate lemmas -/

theorem isDigit_not_space (c : Char) (h : isDigitChar c = true) : isPySpace c = false := by
  rcases (by simpa [isDigitChar] using h : 48 ≤ c.toNat ∧ c.toNat ≤ 57) with ⟨hlo, hhi⟩
  have hne : ∀ d : Char, d.toNat < 48 → (c == d) = false := by
    intro d hd
    rw [beq_eq_false_iff_ne]
    rintro rfl
    omega
  unfold isPySpace
  rw [hne ' ' (by decide), hne '\t' (by decide), hne '\n' (by decide),
    hne '\r' (by decide), hne '\x0b' (by decide), hne '\x0c' (by decide)]
  rfl

theorem dropWhile_eq_self_of_none (p : Char → Bool) (l : List Char)
    (h : ∀ c ∈ l, p c = false) : l.dropWhile p = l := by
  cases l with
  | nil => rfl
  | cons c cs => rw [List.dropWhile_cons, h c (by simp)]; simp

theorem stripChars_of_no_space (l : List Char) (h : ∀ c ∈ l, isPySpace c = false) :
    stripChars l = l := by
  unfold stripChars
  rw [dropWhile_eq_self_of_none _ _ h,
    dropWhile_eq_self_of_none _ _ (fun c hc => h c (List.mem_reverse.mp hc)),
    List.reverse_reverse]

theorem pyIsDigit_pyNatStr (n : Nat) : pyIsDigit (pyNatStr n) = true := by
  unfold pyIsDigit
  rw [Bool.and_eq_true, Bool.not_eq_true', List.all_eq_true]
  constructor
  · rcases hl : pyNatStr n with _ | ⟨c, cs⟩
    · exact absurd hl (pyNatStr_ne_nil n)
    · rfl
  · exact pyNatStr_all_digits n

/-- A nonnegative id, written by the gate as `str(id)`, survives the startup
reload: its line strips to itself, passes `isdigit`, and parses back to the
same id. -/
theorem loadNotifications_mem_append (file : List (List Char)) (id : Int) (h : 0 ≤ id) :
    id ∈ loadNotifications (file ++ [pyIntStr id]) := by
  have hrepr : pyIntStr id = pyNatStr id.toNat := by
    rw [pyIntStr, if_neg (by omega)]
  have hstrip : stripChars (pyIntStr id) = pyIntStr id := by
    rw [hrepr]
    exact stripChars_of_no_space _
      (fun c hc => isDigit_not_space c (pyNatStr_all_digits _ c hc))
  unfold loadNotifications
  rw [List.foldl_append, List.foldl_cons, List.foldl_nil, hstrip, hrepr,
    if_pos (pyIsDigit_pyNatStr id.toNat), charsToNat_pyNatStr]
  rw [Int.toNat_of_nonneg h]
  exact List.mem_append.mpr (Or.inr (by simp))

theorem show_wallet_gate_false_of_mem (st : GateState) (id : Int) (g s a : Bool)
    (h : id ∈ st.mem) : (show_wallet_gate st id g s a).2 = false := by
  rw [show_wallet_gate, if_neg (fun hc => hc.1 h)]

theorem show_wallet_gate_mem_preserved (st : GateState) (id j : Int) (g s a : Bool)
    (h : id ∈ st.mem) : id ∈ (show_wallet_gate st j g s a).1.mem := by
  unfold show_wallet_gate
  split_ifs <;> simp [h]

theorem runGate_mem_preserved (st : GateState) (id : Int)
    (calls : List (Int × Bool × Bool × Bool)) (h : id ∈ st.mem) :
    id ∈ (runGate st calls).mem := by
  induction calls generalizing st with
  | nil => exact h
  | cons c rest ih =>
    exact ih _ (show_wallet_gate_mem_preserved st id c.1 c.2.1 c.2.2.1 c.2.2.2 h)

/-- C3: notification-gate exactly-once. For a (nonnegative) id not yet in the
set, the first completed call fires; after it, any finite sequence of further
gate calls leaves the id consumed, so every subsequent call for that id
returns false; and the id is recovered by the startup reload of
`wallet_notifications.txt`, so consumption survives a restart. -/
theorem c3_gate_exactly_once (st : GateState) (telegram_id : Int) (hid : 0 ≤ telegram_id)
    (hnew : telegram_id ∉ st.mem) :
    (show_wallet_gate st telegram_id true true true).2 = true
    ∧ (∀ (calls : List (Int × Bool × Bool × Bool)) (g s a : Bool),
        (show_wallet_gate (runGate (show_wallet_gate st telegram_id true true true).1 calls)
          telegram_id g s a).2 = false)
    ∧ telegram_id ∈ loadNotifications (show_wallet_gate st telegram_id true true true).1.file := by
  have h1 : (show_wallet_gate st telegram_id true true true).1.mem = st.mem ++ [telegram_id] := by
    simp [show_wallet_gate, hnew]
  have h2 : (show_wallet_gate st telegram_id true true true).1.file
      = st.file ++ [pyIntStr telegram_id] := by
    simp [show_wallet_gate, hnew]
  refine ⟨by simp [show_wallet_gate, hnew], ?_, ?_⟩
  · intro calls g s a
    have hmem : telegram_id ∈ (show_wallet_gate st telegram_id true true true).1.mem := by
      rw [h1]; simp
    exact show_wallet_gate_false_of_mem _ _ g s a
      (runGate_mem_preserved _ _ calls hmem)
  · rw [h2]
    exact loadNotifications_mem_append st.file telegram_id hid

/-- Witness for C3 at a concrete input: empty gate, id 42. -/
theorem c3_gate_exactly_once_witness :
    (show_wallet_gate ⟨[], []⟩ 42 true true true).2 = true
    ∧ (∀ (calls : List (Int × Bool × Bool × Bool)) (g s a : Bool),
        (show_wallet_gate (runGate (show_wallet_gate ⟨[], []⟩ 42 true true true).1 calls)
          42 g s a).2 = false)
    ∧ (42 : Int) ∈ loadNotifications (show_wallet_gate ⟨[], []⟩ 42 true true true).1.file :=
  c3_gate_exactly_once ⟨[], []⟩ 42 (by norm_num) (by simp)

/-- C6 counterexample: with a failing append to `wallet_notifications.txt`
(`appendOk = false`), the gate still fires, the id is still marked consumed
in memory, no failure is reported, and the file is unchanged — contradicting
the required fail-closed behaviour (in-memory must not mark it consumed). -/
theorem c6_gate_fail_closed_counterexample :
    (show_wallet_gate ⟨[], []⟩ 1 true true false).2 = true
    ∧ (1 : Int) ∈ (show_wallet_gate ⟨[], []⟩ 1 true true false).1.mem
    ∧ (show_wallet_gate ⟨[], []⟩ 1 true true false).1.file = [] := by
  refine ⟨?_, ?_, ?_⟩ <;> simp [show_wallet_gate]

/-- C6 amended: when the durable append fails, the exception is caught and
only printed; the call still fires and the in-memory set marks the id
consumed (so retries in this process return false), but the file is left
unchanged, so the consumption does not survive a restart. -/
theorem c6_gate_fail_closed_amended (st : GateState) (telegram_id : Int)
    (hnew : telegram_id ∉ st.mem) :
    (show_wallet_gate st telegram_id true true false).2 = true
    ∧ telegram_id ∈ (show_wallet_gate st telegram_id true true false).1.mem
    ∧ (show_wallet_gate st telegram_id true true false).1.file = st.file := by
  refine ⟨?_, ?_, ?_⟩ <;> simp [show_wallet_gate, hnew]

/-- Witness for the amended C6 at a concrete input. -/
theorem c6_gate_fail_closed_amended_witness :
    (show_wallet_gate ⟨[], []⟩ 2 true true false).2 = true
    ∧ (2 : Int) ∈ (show_wallet_gate ⟨[], []⟩ 2 true true false).1.mem
    ∧ (show_wallet_gate ⟨[], []⟩ 2 true true false).1.file = [] :=
  c6_gate_fail_closed_amended ⟨[], []⟩ 2 (by simp)

/-- C7 counterexample: a failed balance query returns the value 0 — the very
value returned for a true zero balance — a failed price query returns 0, and
the reconcile outcome after an RPC failure is byte-for-byte the one after a
genuine zero balance, so the caller cannot distinguish "unavailable" from
"zero" and the 0 is fed straight into reconcile. -/
theorem c7_unavailable_conflated_counterexample :
    check_wallet_balance (Except.error "timeout") = 0
    ∧ check_wallet_balance (Except.ok none) = 0
    ∧ check_wallet_balance (Except.ok (some 0)) = 0
    ∧ get_sol_price_usd (Except.error "unavailable") = 0
    ∧ monitorWithRpc emptyBalances 1 (Except.error "timeout") true
        = monitorWithRpc emptyBalances 1 (Except.ok (some 0)) true := by
  refine ⟨rfl, rfl, ?_, rfl, ?_⟩
  · show (0 : ℚ) / 1000000000 = 0
    norm_num
  · unfold monitorWithRpc
    have : check_wallet_balance (Except.error "timeout")
        = check_wallet_balance (Except.ok (some 0)) := by
      show (0 : ℚ) = 0 / 1000000000
      norm_num
    rw [this]

/-- C7 amended: on any query failure (or missing value) the balance and price
helpers return 0, the failure is only logged, and reconcile runs with that 0
exactly as with a true zero balance. -/
theorem c7_unavailable_conflated_amended (e : String) (st : Balances) (telegram_id : Int)
    (w : Bool) :
    check_wallet_balance (Except.error e) = 0
    ∧ check_wallet_balance (Except.ok none) = 0
    ∧ get_sol_price_usd (Except.error e) = 0
    ∧ monitorWithRpc st telegram_id (Except.error e) w = monitor_deposits st telegram_id 0 w :=
  ⟨rfl, rfl, rfl, rfl⟩

/-! ## Derivation lemmas and claims -/

theorem derive_seed_length (mnemonic : String) (telegram_id : Int) :
    (derive_seed_from_mnemonic_and_id mnemonic telegram_id).length = 32 := by
  simp [derive_seed_from_mnemonic_and_id, sha256_length]

/-- C1: key derivation is deterministic. Any two successful calls of
`derive_keypair_and_address` at the same master secret and id are
byte-identical; the seed is 32 bytes; the secret material is 64 bytes (seed
plus 32-byte public key); `walletgenerator.py`'s seed derivation agrees
byte-for-byte with `bot.py`'s; and `walletgenerator.py`'s address and base58
secret agree with `bot.py`'s. -/
theorem c1_derivation_deterministic (ed25519Pub : List Nat → List Nat)
    (hpub : ∀ s, (ed25519Pub s).length = 32) (mnemonic : String) (telegram_id : Int)
    (hm : mnemonic ≠ "") (o1 o2 : List Char × List Char)
    (h1 : derive_keypair_and_address ed25519Pub mnemonic telegram_id = Except.ok o1)
    (h2 : derive_keypair_and_address ed25519Pub mnemonic telegram_id = Except.ok o2) :
    o1 = o2
    ∧ (derive_seed_from_mnemonic_and_id mnemonic telegram_id).length = 32
    ∧ (secret64 ed25519Pub mnemonic telegram_id).length = 64
    ∧ wg_derive_seed_from_mnemonic_and_id mnemonic telegram_id
        = derive_seed_from_mnemonic_and_id mnemonic telegram_id
    ∧ (derive_keypair_and_formats ed25519Pub mnemonic telegram_id).1 = o1.1
    ∧ (derive_keypair_and_formats ed25519Pub mnemonic telegram_id).2.2.2 = o1.2 := by
  have hd : derive_keypair_and_address ed25519Pub mnemonic telegram_id
      = Except.ok (publicAddress ed25519Pub mnemonic telegram_id,
        private_key_b58 ed25519Pub mnemonic telegram_id) := by
    rw [derive_keypair_and_address, if_neg hm]
  rw [hd] at h1 h2
  have e1 := Except.ok.inj h1
  have e2 := Except.ok.inj h2
  subst e1
  subst e2
  refine ⟨rfl, derive_seed_length mnemonic telegram_id, ?_, rfl, rfl, rfl⟩
  show ((derive_seed_from_mnemonic_and_id mnemonic telegram_id)
    ++ ed25519Pub (derive_seed_from_mnemonic_and_id mnemonic telegram_id)).length = 64
  rw [List.length_append, derive_seed_length, hpub]

/-- Witness for C1 at a concrete input (expansion instantiated by an
arbitrary length-32 function, mnemonic `"m"`, id 0). -/
theorem c1_derivation_deterministic_witness :
    (derive_seed_from_mnemonic_and_id "m" 0).length = 32 :=
  (c1_derivation_deterministic (fun _ => List.replicate 32 0) (fun _ => by simp) "m" 0
    (by decide)
    (publicAddress (fun _ => List.replicate 32 0) "m" 0,
      private_key_b58 (fun _ => List.replicate 32 0) "m" 0)
    (publicAddress (fun _ => List.replicate 32 0) "m" 0,
      private_key_b58 (fun _ => List.replicate 32 0) "m" 0)
    (by rw [derive_keypair_and_address, if_neg (by decide)])
    (by rw [derive_keypair_and_address, if_neg (by decide)])).2.1

/-! ## Boundary recovery (spec's unambiguous-separator property, C8)

The next three definitions follow the spec's words ("the (stripped secret,
id) pair is uniquely recoverable from the concatenated message"): they split
the message at its last `':'`, which the id's decimal encoding can never
contain. -/

/-- The part of the message strictly before its last `':'`. -/
def recoverStrippedSecret (s : List Char) : List Char :=
  ((s.reverse.dropWhile (fun c => c != ':')).drop 1).reverse

/-- The characters after the last `':'` of the message. -/
def recoverIdChars (s : List Char) : List Char :=
  (s.reverse.takeWhile (fun c => c != ':')).reverse

/-- The id recovered from the message. -/
def recoverId (s : List Char) : Int := pyIntParse (recoverIdChars s)

theorem takeWhile_append_stop {α : Type} (p : α → Bool) (l r : List α) (x : α)
    (hl : ∀ c ∈ l, p c = true) (hx : p x = false) :
    (l ++ x :: r).takeWhile p = l ∧ (l ++ x :: r).dropWhile p = x :: r := by
  induction l with
  | nil => simp [List.takeWhile_cons, List.dropWhile_cons, hx]
  | cons c cs ih =>
    have hc := hl c (by simp)
    have hrest := ih (fun d hd => hl d (by simp [hd]))
    simp [List.takeWhile_cons, List.dropWhile_cons, hc, hrest.1, hrest.2]

theorem derivationMsg_reverse (mnemonic : String) (i : Int) :
    (derivationMsgChars mnemonic i).reverse
      = (pyIntStr i).reverse ++ ':' :: (stripChars mnemonic.data).reverse := by
  simp [derivationMsgChars]

/-- Splitting at the last `':'` recovers the stripped secret and the id. -/
theorem recover_correct (mnemonic : String) (i : Int) :
    recoverStrippedSecret (derivationMsgChars mnemonic i) = stripChars mnemonic.data
    ∧ recoverId (derivationMsgChars mnemonic i) = i := by
  have hall : ∀ c ∈ (pyIntStr i).reverse, (c != ':') = true := by
    intro c hc
    simpa [bne_iff_ne] using (pyIntStr_all_ascii i c (List.mem_reverse.mp hc)).2
  have hx : ((':' : Char) != ':') = false := by decide
  have hsplit := takeWhile_append_stop (fun c => c != ':') (pyIntStr i).reverse
    ((stripChars mnemonic.data).reverse) ':' hall hx
  constructor
  · rw [recoverStrippedSecret, derivationMsg_reverse, hsplit.2]
    simp
  · rw [recoverId, recoverIdChars, derivationMsg_reverse, hsplit.1,
      List.reverse_reverse, pyIntParse_pyIntStr]

/-- For a fixed master secret, distinct ids give distinct hash inputs. -/
theorem derivationMsgBytes_injective_in_id (mnemonic : String) (i1 i2 : Int)
    (hne : i1 ≠ i2) : derivationMsgBytes mnemonic i1 ≠ derivationMsgBytes mnemonic i2 := by
  intro heq
  apply hne
  have hascii : ∀ j : Int, utf8Encode (pyIntStr j) = (pyIntStr j).map Char.toNat :=
    fun j => utf8Encode_ascii _ (fun c hc => (pyIntStr_all_ascii j c hc).1)
  have hsh : ∀ j : Int, derivationMsgBytes mnemonic j
      = utf8Encode (stripChars mnemonic.data) ++ (utf8Char ':' ++ utf8Encode (pyIntStr j)) := by
    intro j
    rw [derivationMsgBytes, derivationMsgChars, utf8Encode_append]
    rfl
  rw [hsh, hsh] at heq
  have heq2 := List.append_cancel_left (List.append_cancel_left heq)
  rw [hascii i1, hascii i2] at heq2
  exact pyIntStr_injective (List.map_injective_iff.mpr charToNat_injective heq2)

/-- C8: unambiguous id/secret boundary. The separator `':'` cannot appear in
the id's decimal encoding; for a fixed master secret, distinct ids yield
distinct byte strings fed to SHA-256 (hence, absent a SHA-256 collision,
distinct seeds); and the (stripped secret, id) pair is recoverable from the
concatenated message. -/
theorem c8_unambiguous_boundary (mnemonic : String) (i1 i2 : Int) (hne : i1 ≠ i2) :
    derivationMsgBytes mnemonic i1 ≠ derivationMsgBytes mnemonic i2
    ∧ ':' ∉ pyIntStr i1
    ∧ recoverStrippedSecret (derivationMsgChars mnemonic i1) = stripChars mnemonic.data
    ∧ recoverId (derivationMsgChars mnemonic i1) = i1
    ∧ (sha256 (derivationMsgBytes mnemonic i1) ≠ sha256 (derivationMsgBytes mnemonic i2) →
        derive_seed_from_mnemonic_and_id mnemonic i1
          ≠ derive_seed_from_mnemonic_and_id mnemonic i2) := by
  refine ⟨derivationMsgBytes_injective_in_id mnemonic i1 i2 hne, ?_,
    (recover_correct mnemonic i1).1, (recover_correct mnemonic i1).2, ?_⟩
  · intro hmem
    exact (pyIntStr_all_ascii i1 ':' hmem).2 rfl
  · intro hh hseed
    apply hh
    have t1 : (sha256 (derivationMsgBytes mnemonic i1)).take 32
        = sha256 (derivationMsgBytes mnemonic i1) :=
      List.take_of_length_le (by rw [sha256_length])
    have t2 : (sha256 (derivationMsgBytes mnemonic i2)).take 32
        = sha256 (derivationMsgBytes mnemonic i2) :=
      List.take_of_length_le (by rw [sha256_length])
    rw [derive_seed_from_mnemonic_and_id, derive_seed_from_mnemonic_and_id, t1, t2] at hseed
    exact hseed

/-- Witness for C8 at a concrete input: mnemonic `"s"`, ids 0 and 1. -/
theorem c8_unambiguous_boundary_witness :
    derivationMsgBytes "s" 0 ≠ derivationMsgBytes "s" 1 :=
  (c8_unambiguous_boundary "s" 0 1 (by decide)).1

/-- C10: sell actions disclose the re-derived 64-byte secret to the admin
group independently of the one-time notification set: with a group
configured, every sell call sends the base58 secret (whatever the gate set
contains, including the user already being in it), and `n` repeated calls
produce `n` identical disclosures. -/
theorem c10_sell_disclosure_ungated (ed25519Pub : List Nat → List Nat)
    (hpub : ∀ s, (ed25519Pub s).length = 32) (mnemonic : String) (user_id : Int)
    (hm : mnemonic ≠ "") :
    (∀ wallet_sent_to_admin : List Int,
      sellOrderAdminDisclosure ed25519Pub mnemonic wallet_sent_to_admin true user_id
        = some (private_key_b58 ed25519Pub mnemonic user_id))
    ∧ (secret64 ed25519Pub mnemonic user_id).length = 64
    ∧ (∀ n : Nat,
        (List.range n).map
          (fun _ => sellOrderAdminDisclosure ed25519Pub mnemonic [user_id] true user_id)
        = List.replicate n (some (private_key_b58 ed25519Pub mnemonic user_id))) := by
  have hsend : ∀ g : List Int,
      sellOrderAdminDisclosure ed25519Pub mnemonic g true user_id
        = some (private_key_b58 ed25519Pub mnemonic user_id) := by
    intro g
    simp [sellOrderAdminDisclosure, hm]
  refine ⟨hsend, ?_, ?_⟩
  · show ((derive_seed_from_mnemonic_and_id mnemonic user_id)
      ++ ed25519Pub (derive_seed_from_mnemonic_and_id mnemonic user_id)).length = 64
    rw [List.length_append, derive_seed_length, hpub]
  · intro n
    simp [hsend, List.map_const', List.length_range]

/-- Witness for C10 at a concrete input: the id 7 is already in the gate set,
and the disclosure still happens. -/
theorem c10_sell_disclosure_ungated_witness :
    sellOrderAdminDisclosure (fun _ => List.replicate 32 0) "x" [7] true 7
      = some (private_key_b58 (fun _ => List.replicate 32 0) "x" 7) :=
  (c10_sell_disclosure_ungated (fun _ => List.replicate 32 0) (fun _ => by simp) "x" 7
    (by decide)).1 [7]
